import Mathlib

/-!
Verification of the `rusty-tesseract` process-invocation shim
(`src/tesseract/command.rs`): command construction, subprocess result
classification, and the thin public operations built on them.

The subprocess interaction is modelled by an oracle
`runner : Command → ProcessOutcome` describing what the operating system
does with a given assembled command; the pure classification logic of
`run_tesseract_command` is embedded faithfully from the source.
-/

namespace RustyTesseract

/-- Error type of the crate.  Only the two variants used by
`command.rs` are modelled: `TesseractNotFoundError` (spawn/collection
failure) and `VersionError` (process-error carrying a message). -/
inductive TessError : Type
  | TesseractNotFoundError : TessError
  | VersionError (msg : String) : TessError
deriving DecidableEq, Repr

/-- `std::process::Command`: a program name plus an ordered argument list. -/
structure Command : Type where
  program : String
  args : List String
deriving DecidableEq, Repr

/-- `Command::arg`: append one argument. -/
def Command.arg (c : Command) (a : String) : Command :=
  { c with args := c.args ++ [a] }

/-- `get_tesseract_command`: `tesseract.exe` on Windows, `tesseract`
elsewhere, with no arguments yet.  The `cfg!(target_os = "windows")`
compile-time switch is modelled by the `windows` parameter. -/
def get_tesseract_command (windows : Bool) : Command :=
  { program := if windows then "tesseract.exe" else "tesseract", args := [] }

/-- Modelled from the spec: the recognition options (`Args` lives outside
`src/`): "language identifier (string), DPI (integer), page segmentation
mode (integer enum), OCR engine mode (integer enum), optional list of
key/value engine configuration overrides". -/
structure Args : Type where
  lang : String
  dpi : Int
  psm : Int
  oem : Int
  config_variables : List (String × String)
deriving DecidableEq, Repr

/-- Modelled from the spec: `Args::get_config_variable_args` lives outside
`src/`.  Per the spec, when engine configuration overrides are present it
yields "a single combined configuration flag carrying a ... joined
key=value parameter string" (`<key=value[,key=value...]>`); when none are
present, no flag is emitted. -/
def Args.get_config_variable_args (args : Args) : Option String :=
  if args.config_variables.isEmpty then none
  else some (String.intercalate ","
    (args.config_variables.map (fun kv => kv.1 ++ "=" ++ kv.2)))

/-- Modelled from the spec: the `Image` type lives outside `src/`.  Per the
spec an image reference is resolved to a filesystem path before this layer
("just a path string is consumed per call"). -/
structure Image : Type where
  path : String
deriving DecidableEq, Repr

/-- Modelled from the spec: `Image::get_image_path` lives outside `src/`;
for an image reference already resolved to a path it returns that path. -/
def Image.get_image_path (image : Image) : Except TessError String :=
  .ok image.path

/-- `create_tesseract_command`: assembles
`<image-path> stdout -l <lang> --dpi <dpi> --psm <psm> --oem <oem>`
and, when engine configuration overrides are present, a trailing
`-c <param>` pair. -/
def create_tesseract_command (windows : Bool) (image : Image) (args : Args) :
    Except TessError Command := do
  let path ← image.get_image_path
  let command := ((((((((((get_tesseract_command windows).arg
    path).arg
    "stdout").arg
    "-l").arg
    args.lang).arg
    "--dpi").arg
    (toString args.dpi)).arg
    "--psm").arg
    (toString args.psm)).arg
    "--oem").arg
    (toString args.oem)
  let command :=
    match args.get_config_variable_args with
    | some parameter => (command.arg "-c").arg parameter
    | none => command
  return command

/-- UTF-8 validation and decoding of a byte sequence, as performed by
`String::from_utf8`: accepts exactly well-formed UTF-8 (no overlong
encodings, no surrogates, code points up to U+10FFFF) and yields the
decoded characters; `none` models a `FromUtf8Error`. -/
def utf8DecodeAux (bytes : List Nat) (acc : List Char) : Option (List Char) :=
  match bytes with
  | [] => some acc.reverse
  | b0 :: rest =>
    if b0 < 0x80 then
      utf8DecodeAux rest (Char.ofNat b0 :: acc)
    else if b0 < 0xC2 then none
    else if b0 < 0xE0 then
      match rest with
      | b1 :: rest1 =>
        if 0x80 ≤ b1 ∧ b1 < 0xC0 then
          utf8DecodeAux rest1
            (Char.ofNat ((b0 - 0xC0) * 0x40 + (b1 - 0x80)) :: acc)
        else none
      | [] => none
    else if b0 < 0xF0 then
      match rest with
      | b1 :: b2 :: rest2 =>
        let lo1 := if b0 = 0xE0 then 0xA0 else 0x80
        let hi1 := if b0 = 0xED then 0xA0 else 0xC0
        if lo1 ≤ b1 ∧ b1 < hi1 ∧ 0x80 ≤ b2 ∧ b2 < 0xC0 then
          utf8DecodeAux rest2
            (Char.ofNat ((b0 - 0xE0) * 0x1000 + (b1 - 0x80) * 0x40 +
              (b2 - 0x80)) :: acc)
        else none
      | _ => none
    else if b0 < 0xF5 then
      match rest with
      | b1 :: b2 :: b3 :: rest3 =>
        let lo1 := if b0 = 0xF0 then 0x90 else 0x80
        let hi1 := if b0 = 0xF4 then 0x90 else 0xC0
        if lo1 ≤ b1 ∧ b1 < hi1 ∧ 0x80 ≤ b2 ∧ b2 < 0xC0 ∧
            0x80 ≤ b3 ∧ b3 < 0xC0 then
          utf8DecodeAux rest3
            (Char.ofNat ((b0 - 0xF0) * 0x40000 + (b1 - 0x80) * 0x1000 +
              (b2 - 0x80) * 0x40 + (b3 - 0x80)) :: acc)
        else none
      | _ => none
    else none

/-- `String::from_utf8`, returning `none` on invalid bytes. -/
def fromUtf8 (bytes : List Nat) : Option String :=
  (utf8DecodeAux bytes []).map (fun cs => ⟨cs⟩)

/-- What the operating system does with one spawned command: the spawn
itself fails (`spawn` returns `Err`), collecting the output fails
(`wait_with_output` returns `Err`), or the child completes with captured
stdout/stderr byte streams and an `ExitStatus` whose `code()` is
`some c` on normal exit and `none` on abnormal (signal) termination. -/
inductive ProcessOutcome : Type
  | spawnFailed : ProcessOutcome
  | waitFailed : ProcessOutcome
  | completed (stdout stderr : List Nat) (code : Option Int) : ProcessOutcome
deriving DecidableEq, Repr

/-- Result of running the process runner: either the Rust function
returns a `TessResult` value, or it panics (the `.unwrap()` calls on
UTF-8 decoding abort instead of returning). -/
inductive RunOut (α : Type) : Type
  | panicked : RunOut α
  | result (r : Except TessError α) : RunOut α
deriving Repr

/-- `run_tesseract_command`, with the subprocess behaviour supplied by the
`runner` oracle: a spawn or output-collection failure maps to
`TesseractNotFoundError`; both captured streams are decoded with
`.unwrap()` (panicking on invalid bytes); then the exit status is
classified — code 0 succeeds with stdout, a nonzero code or signal death
produce a `VersionError` message embedding the code (or a signal note)
and stderr. -/
def run_tesseract_command (runner : Command → ProcessOutcome)
    (command : Command) : RunOut String :=
  match runner command with
  | .spawnFailed => .result (.error .TesseractNotFoundError)
  | .waitFailed => .result (.error .TesseractNotFoundError)
  | .completed stdoutBytes stderrBytes status =>
    match fromUtf8 stdoutBytes, fromUtf8 stderrBytes with
    | some out, some err =>
      match status with
      | some 0 => .result (.ok out)
      | some exitcode => .result (.error (.VersionError
          ("Process exited with code: " ++ toString exitcode ++
            (", stderr: " ++ err))))
      | none => .result (.error (.VersionError
          ("Process terminated by signal, stderr: " ++ err)))
    | _, _ => .panicked

/-- `get_tesseract_version`: run the platform command with the single
argument `--version` and return the captured stdout verbatim. -/
def get_tesseract_version (windows : Bool)
    (runner : Command → ProcessOutcome) : RunOut String :=
  run_tesseract_command runner ((get_tesseract_command windows).arg "--version")

/-- Split a character list at every `'\n'` (the separators are dropped);
always returns at least one (possibly empty) piece. -/
def splitNewlines : List Char → List (List Char)
  | [] => [[]]
  | c :: rest =>
    if c = '\n' then [] :: splitNewlines rest
    else
      match splitNewlines rest with
      | [] => [[c]]
      | l :: ls => (c :: l) :: ls

/-- Strip one trailing carriage return, if present. -/
def stripCR (line : List Char) : List Char :=
  if line.getLast? = some '\r' then line.dropLast else line

/-- `str::lines`: split after every `"\n"` (a trailing terminator yields
no final empty line) and strip one trailing `'\r'` from every line that
was terminated by `"\n"`; a final unterminated line keeps a trailing
`'\r'`. -/
def rustLines (s : String) : List String :=
  match (splitNewlines s.data).reverse with
  | [] => []
  | last :: revInit =>
    let init := revInit.reverse.map (fun line => String.mk (stripCR line))
    if last = [] then init else init ++ [String.mk last]

/-- `get_tesseract_langs`: run the platform command with `--list-langs`,
split the returned text into lines, skip the first (header) line and
collect the rest.  (The Rust `.map(|x| x.into())` converts `&str` to
`String` and is the identity on the modelled strings.) -/
def get_tesseract_langs (windows : Bool)
    (runner : Command → ProcessOutcome) : RunOut (List String) :=
  match run_tesseract_command runner
      ((get_tesseract_command windows).arg "--list-langs") with
  | .panicked => .panicked
  | .result (.error e) => .result (.error e)
  | .result (.ok output) => .result (.ok ((rustLines output).drop 1))

/-- `image_to_string`: build the recognize command and run it. -/
def image_to_string (windows : Bool) (runner : Command → ProcessOutcome)
    (image : Image) (args : Args) : RunOut String :=
  match create_tesseract_command windows image args with
  | .error e => .result (.error e)
  | .ok command => run_tesseract_command runner command

/-- `charsStart n l`: the character list `l` starts with `n`. -/
def charsStart : List Char → List Char → Bool
  | [], _ => true
  | _ :: _, [] => false
  | a :: as, b :: bs => a == b && charsStart as bs

/-- `charsSub n l`: `n` occurs contiguously somewhere inside `l`. -/
def charsSub (needle : List Char) : List Char → Bool
  | [] => charsStart needle []
  | c :: t => charsStart needle (c :: t) || charsSub needle t

/-- `strContainsSub haystack needle`: `needle` is a contiguous substring
of `haystack` (used to state "the message contains ..."). -/
def strContainsSub (haystack needle : String) : Bool :=
  charsSub needle.data haystack.data

theorem charsStart_append (n t : List Char) : charsStart n (n ++ t) = true := by
  induction n with
  | nil => rfl
  | cons a as ih => simp [charsStart, ih]

theorem charsSub_of_start {n l : List Char} (h : charsStart n l = true) :
    charsSub n l = true := by
  cases l with
  | nil => simpa [charsSub] using h
  | cons c t => simp [charsSub, h]

theorem charsSub_append_left (p : List Char) {n t : List Char}
    (h : charsSub n t = true) : charsSub n (p ++ t) = true := by
  induction p with
  | nil => simpa using h
  | cons c cs ih => simp [charsSub, ih]

/-- A string occurring in the middle of a concatenation is contained. -/
theorem strContainsSub_mid (a n b : String) :
    strContainsSub (a ++ (n ++ b)) n = true := by
  unfold strContainsSub
  rw [String.data_append, String.data_append]
  exact charsSub_append_left a.data
    (charsSub_of_start (charsStart_append n.data b.data))

/-- A string occurring at the end of a concatenation is contained. -/
theorem strContainsSub_right (a n : String) :
    strContainsSub (a ++ n) n = true := by
  unfold strContainsSub
  rw [String.data_append]
  refine charsSub_append_left a.data (charsSub_of_start ?_)
  simpa using charsStart_append n.data []

/-- Helper: a zero exit with decodable streams succeeds with stdout. -/
theorem run_ok_of_zero_exit
    (runner : Command → ProcessOutcome) (cmd : Command)
    (stdoutBytes stderrBytes : List Nat) (out err : String)
    (hc : runner cmd = .completed stdoutBytes stderrBytes (some 0))
    (hout : fromUtf8 stdoutBytes = some out)
    (herr : fromUtf8 stderrBytes = some err) :
    run_tesseract_command runner cmd = .result (.ok out) := by
  unfold run_tesseract_command
  rw [hc]
  dsimp only
  rw [hout, herr]
  rfl

end RustyTesseract

namespace RustyTesseract

/-- C2: the fixed recognize invocation of the spec. -/
theorem create_recognize_eng_300 (w : Bool) :
    create_tesseract_command w ⟨"page.png"⟩ ⟨"eng", 300, 3, 3, []⟩ =
      .ok ⟨(get_tesseract_command w).program,
        ["page.png", "stdout", "-l", "eng", "--dpi", "300",
         "--psm", "3", "--oem", "3"]⟩ := by
  cases w <;> rfl

/-- C1: for a completed subprocess whose captured streams decode to `out`
and `err`, `run_tesseract_command` classifies the exit status as a
tri-state: code 0 succeeds with `out`; a nonzero code yields a
process-error (`VersionError`) whose message contains the numeric code
and `err`; no code (signal death) yields a process-error whose message
notes the signal termination and contains `err`. -/
theorem run_classifies_exit_status
    (runner : Command → ProcessOutcome) (cmd : Command)
    (stdoutBytes stderrBytes : List Nat) (out err : String)
    (status : Option Int)
    (hc : runner cmd = .completed stdoutBytes stderrBytes status)
    (hout : fromUtf8 stdoutBytes = some out)
    (herr : fromUtf8 stderrBytes = some err) :
    (status = some 0 →
      run_tesseract_command runner cmd = .result (.ok out)) ∧
    (∀ c : Int, status = some c → c ≠ 0 → ∃ msg,
      run_tesseract_command runner cmd =
        .result (.error (.VersionError msg)) ∧
      strContainsSub msg (toString c) = true ∧
      strContainsSub msg err = true) ∧
    (status = none → ∃ msg,
      run_tesseract_command runner cmd =
        .result (.error (.VersionError msg)) ∧
      strContainsSub msg "terminated by signal" = true ∧
      strContainsSub msg err = true) := by
  unfold run_tesseract_command
  rw [hc]
  dsimp only
  rw [hout, herr]
  dsimp only
  refine ⟨?_, ?_, ?_⟩
  · intro h0
    rw [h0]
    rfl
  · intro c hcode hc0
    rw [hcode]
    refine ⟨"Process exited with code: " ++ toString c ++
      (", stderr: " ++ err), ?_, ?_, ?_⟩
    · have : c ≠ 0 := hc0
      match c, this with
      | Int.ofNat (n + 1), _ => rfl
      | Int.negSucc n, _ => rfl
    · have hr : "Process exited with code: " ++ toString c ++
          (", stderr: " ++ err) =
          "Process exited with code: " ++ (toString c ++ (", stderr: " ++ err)) :=
        String.append_assoc _ _ _
      rw [hr]
      exact strContainsSub_mid _ _ _
    · have hr : "Process exited with code: " ++ toString c ++
          (", stderr: " ++ err) =
          ("Process exited with code: " ++ toString c ++ ", stderr: ") ++ err := by
        rw [String.append_assoc, String.append_assoc, String.append_assoc]
      rw [hr]
      exact strContainsSub_right _ _
  · intro hnone
    rw [hnone]
    refine ⟨"Process terminated by signal, stderr: " ++ err, rfl, ?_, ?_⟩
    · have hr : "Process terminated by signal, stderr: " ++ err =
          "Process " ++ ("terminated by signal" ++ (", stderr: " ++ err)) := by
        rw [← String.append_assoc, ← String.append_assoc]
        rfl
      rw [hr]
      exact strContainsSub_mid _ _ _
    · exact strContainsSub_right _ _

/-- C1 witness: a subprocess exiting with code 1 and stderr `"boom"`
yields a process-error whose message contains `"1"` and `"boom"`. -/
theorem run_classifies_exit_status_witness :
    ∃ msg,
      run_tesseract_command
          (fun _ => .completed [104, 105] [98, 111, 111, 109] (some 1))
          ⟨"tesseract", []⟩ =
        .result (.error (.VersionError msg)) ∧
      strContainsSub msg (toString (1 : Int)) = true ∧
      strContainsSub msg "boom" = true :=
  (run_classifies_exit_status
    (fun _ => .completed [104, 105] [98, 111, 111, 109] (some 1))
    ⟨"tesseract", []⟩ [104, 105] [98, 111, 111, 109] "hi" "boom"
    (some 1) rfl rfl rfl).2.1 1 rfl (by decide)

/-- C5: a failed spawn of the external binary yields the binary-not-found
error kind, which is distinct from the process-error kind. -/
theorem spawn_failure_is_not_found
    (runner : Command → ProcessOutcome) (cmd : Command)
    (h : runner cmd = .spawnFailed) :
    run_tesseract_command runner cmd =
      .result (.error .TesseractNotFoundError) ∧
    ∀ msg : String,
      (TessError.TesseractNotFoundError : TessError) ≠ .VersionError msg := by
  constructor
  · unfold run_tesseract_command
    rw [h]
  · intro msg hne
    cases hne

/-- C5 witness: a spawn failure on a concrete command. -/
theorem spawn_failure_is_not_found_witness :
    run_tesseract_command (fun _ => .spawnFailed)
        ⟨"tesseract", ["--version"]⟩ =
      .result (.error .TesseractNotFoundError) :=
  (spawn_failure_is_not_found (fun _ => .spawnFailed)
    ⟨"tesseract", ["--version"]⟩ rfl).1

/-- C9: a failure while waiting for / collecting the child's output is
also reported as `TesseractNotFoundError`, never as a `VersionError`. -/
theorem wait_failure_is_not_found
    (runner : Command → ProcessOutcome) (cmd : Command)
    (h : runner cmd = .waitFailed) :
    run_tesseract_command runner cmd =
      .result (.error .TesseractNotFoundError) ∧
    ∀ msg : String,
      run_tesseract_command runner cmd ≠
        .result (.error (.VersionError msg)) := by
  have hrun : run_tesseract_command runner cmd =
      .result (.error .TesseractNotFoundError) := by
    unfold run_tesseract_command
    rw [h]
  refine ⟨hrun, ?_⟩
  intro msg hne
  rw [hrun] at hne
  cases hne

/-- C9 witness: a wait/collection failure on a concrete command. -/
theorem wait_failure_is_not_found_witness :
    run_tesseract_command (fun _ => .waitFailed)
        ⟨"tesseract", ["--list-langs"]⟩ =
      .result (.error .TesseractNotFoundError) :=
  (wait_failure_is_not_found (fun _ => .waitFailed)
    ⟨"tesseract", ["--list-langs"]⟩ rfl).1

/-- C7: for a completed subprocess, `run_tesseract_command` panics (the
`.unwrap()` aborts) exactly when one of the captured streams is not
valid UTF-8; in particular no error value is ever returned for invalid
bytes, and decoding proceeds without panic only when both streams are
valid text. -/
theorem invalid_utf8_panics
    (runner : Command → ProcessOutcome) (cmd : Command)
    (stdoutBytes stderrBytes : List Nat) (status : Option Int)
    (h : runner cmd = .completed stdoutBytes stderrBytes status) :
    run_tesseract_command runner cmd = .panicked ↔
      fromUtf8 stdoutBytes = none ∨ fromUtf8 stderrBytes = none := by
  unfold run_tesseract_command
  rw [h]
  dsimp only
  cases hout : fromUtf8 stdoutBytes with
  | none => simp
  | some out =>
    cases herr : fromUtf8 stderrBytes with
    | none => simp
    | some err =>
      dsimp only
      constructor
      · intro hcontra
        split at hcontra <;> cases hcontra
      · rintro (hbad | hbad) <;> cases hbad

/-- C7 witness: invalid stdout bytes make the runner panic. -/
theorem invalid_utf8_panics_witness :
    run_tesseract_command (fun _ => .completed [255] [] (some 0))
      ⟨"tesseract", ["page.png", "stdout"]⟩ = .panicked :=
  (invalid_utf8_panics (fun _ => .completed [255] [] (some 0))
    ⟨"tesseract", ["page.png", "stdout"]⟩ [255] [] (some 0) rfl).mpr
    (Or.inl rfl)

/-- C8: `get_tesseract_version` runs the platform binary with the single
argument `--version`, and on a zero exit with decodable streams returns
the captured stdout exactly as decoded — no trimming. -/
theorem version_invocation_and_raw_output (w : Bool)
    (runner : Command → ProcessOutcome) :
    get_tesseract_version w runner =
      run_tesseract_command runner
        ⟨(get_tesseract_command w).program, ["--version"]⟩ ∧
    ∀ stdoutBytes stderrBytes out err,
      runner ⟨(get_tesseract_command w).program, ["--version"]⟩ =
        .completed stdoutBytes stderrBytes (some 0) →
      fromUtf8 stdoutBytes = some out →
      fromUtf8 stderrBytes = some err →
      get_tesseract_version w runner = .result (.ok out) := by
  constructor
  · rfl
  · intro stdoutBytes stderrBytes out err hc hout herr
    show run_tesseract_command runner
      ⟨(get_tesseract_command w).program, ["--version"]⟩ = .result (.ok out)
    exact run_ok_of_zero_exit runner
      ⟨(get_tesseract_command w).program, ["--version"]⟩
      stdoutBytes stderrBytes out err hc hout herr

/-- C8 witness: a version run capturing `"5.3\n"` returns it verbatim,
trailing newline included. -/
theorem version_invocation_and_raw_output_witness :
    get_tesseract_version false
        (fun _ => .completed [53, 46, 51, 10] [] (some 0)) =
      .result (.ok "5.3\n") :=
  (version_invocation_and_raw_output false
    (fun _ => .completed [53, 46, 51, 10] [] (some 0))).2
    [53, 46, 51, 10] [] "5.3\n" "" rfl rfl rfl

/-- C4: whenever the list-languages run succeeds with text `out`,
`get_tesseract_langs` splits `out` into lines, discards exactly the
first, and returns the remaining lines in order, duplicates included. -/
theorem langs_drop_header (w : Bool) (runner : Command → ProcessOutcome)
    (out : String)
    (hrun : run_tesseract_command runner
        ((get_tesseract_command w).arg "--list-langs") = .result (.ok out)) :
    get_tesseract_langs w runner = .result (.ok ((rustLines out).drop 1)) ∧
    ∀ hd rest, rustLines out = hd :: rest →
      get_tesseract_langs w runner = .result (.ok rest) := by
  have hbase : get_tesseract_langs w runner =
      .result (.ok ((rustLines out).drop 1)) := by
    unfold get_tesseract_langs
    rw [hrun]
  refine ⟨hbase, ?_⟩
  intro hd rest hlines
  rw [hbase, hlines]
  rfl

/-- C4 witness: output `"h\na\nb\na"` drops the header `"h"` and keeps
the duplicate `"a"` lines in order. -/
theorem langs_drop_header_witness :
    get_tesseract_langs false
        (fun _ => .completed [104, 10, 97, 10, 98, 10, 97] [] (some 0)) =
      .result (.ok ["a", "b", "a"]) :=
  (langs_drop_header false
    (fun _ => .completed [104, 10, 97, 10, 98, 10, 97] [] (some 0))
    "h\na\nb\na" rfl).2 "h" ["a", "b", "a"] rfl

/-- C10: a successful list-languages run whose captured output is empty
or a single line yields the empty language list. -/
theorem langs_short_output_empty (w : Bool)
    (runner : Command → ProcessOutcome) (out : String)
    (hrun : run_tesseract_command runner
        ((get_tesseract_command w).arg "--list-langs") = .result (.ok out))
    (hshort : (rustLines out).length ≤ 1) :
    get_tesseract_langs w runner = .result (.ok []) := by
  unfold get_tesseract_langs
  rw [hrun]
  dsimp only
  rw [List.drop_eq_nil_of_le hshort]

/-- C10 witness: empty captured output yields the empty list. -/
theorem langs_short_output_empty_witness :
    get_tesseract_langs false (fun _ => .completed [] [] (some 0)) =
      .result (.ok []) :=
  langs_short_output_empty false (fun _ => .completed [] [] (some 0))
    "" rfl (by decide)

/-- C3: any options with at least one engine configuration override make
`create_tesseract_command` append exactly one trailing `-c <param>`
pair — one combined flag however many overrides are supplied. -/
theorem config_overrides_single_flag (w : Bool) (image : Image)
    (args : Args) (h : args.config_variables ≠ []) :
    ∃ param, create_tesseract_command w image args =
      .ok ⟨(get_tesseract_command w).program,
        [image.path, "stdout", "-l", args.lang, "--dpi", toString args.dpi,
         "--psm", toString args.psm, "--oem", toString args.oem,
         "-c", param]⟩ := by
  obtain ⟨lang, dpi, psm, oem, cvs⟩ := args
  obtain ⟨p⟩ := image
  cases cvs with
  | nil => exact absurd rfl h
  | cons kv tl => exact ⟨_, rfl⟩

/-- C3 witness: two overrides still produce a single trailing `-c`
flag with one combined parameter string. -/
theorem config_overrides_single_flag_witness :
    ([("a", "1"), ("b", "2")] : List (String × String)) ≠ [] ∧
    ∃ param, create_tesseract_command false ⟨"page.png"⟩
        ⟨"eng", 300, 3, 3, [("a", "1"), ("b", "2")]⟩ =
      .ok ⟨"tesseract",
        ["page.png", "stdout", "-l", "eng", "--dpi", "300", "--psm", "3",
         "--oem", "3", "-c", param]⟩ :=
  ⟨by decide,
    config_overrides_single_flag false ⟨"page.png"⟩
      ⟨"eng", 300, 3, 3, [("a", "1"), ("b", "2")]⟩ (by decide)⟩

/-- C6: the command-builder layer cannot fail — for every platform,
image reference and options it returns a command. -/
theorem create_command_cannot_fail (w : Bool) (image : Image)
    (args : Args) :
    ∃ c, create_tesseract_command w image args = .ok c := by
  obtain ⟨lang, dpi, psm, oem, cvs⟩ := args
  obtain ⟨p⟩ := image
  cases cvs with
  | nil => exact ⟨_, rfl⟩
  | cons kv tl => exact ⟨_, rfl⟩

end RustyTesseract
